import Mathlib

/-
Verification of the map-pin web service (src/app.py) against its
natural-language specification.

Shallow embedding conventions:
* The `Broadcaster` class (app.py lines 77-108) is modelled as a state
  `BState` together with one transition per method.  Subscriber queues
  (`queue.Queue`) are modelled by their list of enqueued messages, indexed
  by a natural-number subscriber identity; `queue.Queue.put` on an
  unbounded queue never raises in CPython, so the dead-client branch of
  `broadcast` is unreachable and message delivery is modelled as total.
  `set.remove` raises `KeyError` on a missing element, so `unregister`
  is partial: transitions return `Option BState`, `none` marking a raised
  exception.
* `deque(maxlen=100)` is modelled as a list holding the most recent 100
  elements, oldest first (`trim`).
* `get_nearest_city` (lines 30-74) is modelled with the outcome of the
  single outbound HTTP request supplied as an explicit `FetchOutcome`
  argument (`success` carries the parsed JSON body; `failure` stands for
  any raised exception: network error, timeout, non-success status from
  `raise_for_status`, or malformed JSON from `response.json()`).
  Coordinates are modelled as integers: none of the checked claims
  depends on float arithmetic, only on the cache key built from them.
* The file system is modelled as an association list from full path
  strings to file contents; a content of `none` stands for a file that
  exists but on which `json.load` raises.  Python string operations are
  modelled over the underlying character list (`String.data`).
-/

set_option maxHeartbeats 1000000

namespace MapApp

/-! ## Broadcaster (app.py lines 77-108) -/

/-- State of the `Broadcaster` object: `clients` is the active set of
subscriber queues (a Python `set`, here a duplicate-free list of
subscriber identities), `messages` the `deque(maxlen=100)` replay buffer
(oldest first), and `queues i` the contents of subscriber `i`'s queue
(front first). -/
structure BState where
  clients : List Nat
  messages : List Nat
  queues : Nat → List Nat

/-- The broadcaster as constructed at line 110: no clients, empty buffer,
and every (not yet created) subscriber queue empty. -/
def initState : BState := { clients := [], messages := [], queues := fun _ => [] }

/-- Content of a `deque(maxlen=100)`: the most recent 100 elements. -/
def trim (l : List Nat) : List Nat := l.drop (l.length - 100)

/-- One call on the broadcaster. -/
inductive Event where
  | register : Nat → Event
  | unregister : Nat → Event
  | broadcast : Nat → Event
deriving DecidableEq, Repr

/-- Method `Broadcaster.register` (lines 83-89): add the queue to the client set
(`set.add`, a no-op if already present), then enqueue every buffered
message to it in arrival order. -/
def registerStep (s : BState) (q : Nat) : BState :=
  { clients := if q ∈ s.clients then s.clients else q :: s.clients,
    messages := s.messages,
    queues := fun i => if i = q then s.queues i ++ s.messages else s.queues i }

/-- Method `Broadcaster.unregister` (lines 91-94): `set.remove` raises `KeyError`
when the queue is not in the client set, modelled by `none`. -/
def unregisterStep (s : BState) (q : Nat) : Option BState :=
  if q ∈ s.clients then
    some { s with clients := s.clients.erase q }
  else
    none

/-- Method `Broadcaster.broadcast` (lines 96-108): append the message to the
replay buffer (evicting the oldest beyond 100), then enqueue it to every
active client.  `queue.Queue.put` on an unbounded queue cannot raise, so
the `dead_clients` purge is vacuous. -/
def broadcastStep (s : BState) (m : Nat) : BState :=
  { clients := s.clients,
    messages := trim (s.messages ++ [m]),
    queues := fun i => if i ∈ s.clients then s.queues i ++ [m] else s.queues i }

/-- Interpret one event. -/
def step (s : BState) : Event → Option BState
  | Event.register q => some (registerStep s q)
  | Event.unregister q => unregisterStep s q
  | Event.broadcast m => some (broadcastStep s m)

/-- Interpret a sequence of calls; `none` when some call raised. -/
def run (s : BState) : List Event → Option BState
  | [] => some s
  | e :: tr =>
    match step s e with
    | some s2 => run s2 tr
    | none => none

/-- The messages broadcast in a trace, in issuance order. -/
def broadcasts : List Event → List Nat
  | [] => []
  | Event.broadcast m :: tr => m :: broadcasts tr
  | Event.register _ :: tr => broadcasts tr
  | Event.unregister _ :: tr => broadcasts tr

/-- Whether an event mentions subscriber `q`. -/
def touches (q : Nat) : Event → Bool
  | Event.register p => p == q
  | Event.unregister p => p == q
  | Event.broadcast _ => false

/-! ## Location resolver (app.py lines 30-74) -/

/-- Parsed JSON body of a Nominatim reverse-geocoding response: the
`address` object (fields that are present, with their string values) and
the optional `display_name` string. -/
structure GeoData where
  address : List (String × String)
  display_name : Option String
deriving DecidableEq, Repr

/-- Outcome of the single outbound HTTP request on a cache miss:
`success` carries the parsed body; `failure` stands for any exception
raised by `requests.get`, `raise_for_status` or `response.json()`
(network error, timeout, non-success status, malformed response). -/
inductive FetchOutcome where
  | success : GeoData → FetchOutcome
  | failure : FetchOutcome
deriving DecidableEq, Repr

/-- Observable state of the resolver: the `location_cache` dict (an
association list, most recent entry first) and a counter of outbound
lookup requests issued so far. -/
structure GeoState where
  cache : List (String × String)
  lookups : Nat
deriving DecidableEq, Repr

/-- The ordered preference list of address fields (line 56). -/
def prefKeys : List String := ["city", "town", "village", "suburb", "county", "state"]

/-- Characters before the first comma. -/
def takeUntilComma : List Char → List Char
  | [] => []
  | c :: cs => if c = ',' then [] else c :: takeUntilComma cs

/-- Python `display_name.split(',')[0]` (line 64): the characters before the
first comma (the whole string when it has no comma). -/
def headSegment (s : String) : String := String.mk (takeUntilComma s.data)

/-- The result-extraction code of `get_nearest_city` (lines 52-68):
take the value of the first *present* key of the preference list and stop
there; if that value is falsy (or no key was present) and `display_name`
is present, fall back to its first comma-separated segment; a final falsy
value becomes the sentinel via `location or "Unknown location"`. -/
def extract (d : GeoData) : String :=
  let loc0 : Option String := prefKeys.findSome? (fun k => List.lookup k d.address)
  let loc1 : Option String :=
    if loc0.getD "" = "" then
      match d.display_name with
      | some dn => some (headSegment dn)
      | none => loc0
    else loc0
  match loc1 with
  | some v => if v = "" then "Unknown location" else v
  | none => "Unknown location"

/-- The cache key `f"{lat},{lon}"` (line 32); coordinates are modelled as
integers since no checked claim depends on float behaviour. -/
def cacheKey (lat lon : Int) : String := toString lat ++ "," ++ toString lon

/-- Function `get_nearest_city` (lines 30-74): on a cache hit return the cached
value with no outbound request; on a miss issue one lookup; if it raises,
return the sentinel *without caching it* (the `except` branch at lines
72-74 does not write to `location_cache`); otherwise extract the name,
cache it (line 69) and return it. -/
def get_nearest_city (fetch : FetchOutcome) (st : GeoState) (lat lon : Int) :
    String × GeoState :=
  match List.lookup (cacheKey lat lon) st.cache with
  | some v => (v, st)
  | none =>
    let st1 : GeoState := { st with lookups := st.lookups + 1 }
    match fetch with
    | FetchOutcome.failure => ("Unknown location", st1)
    | FetchOutcome.success d =>
      let location := extract d
      (location, { st1 with cache := (cacheKey lat lon, location) :: st1.cache })

/-- The spec's result-extraction policy, written from the spec's words:
"pick the first populated field among an ordered preference list (city,
town, village, suburb, county, state — in that priority). If none
present, fall back to the first comma-separated segment of the full
display name. If neither is available ... return the sentinel." -/
def extractSpec (d : GeoData) : String :=
  match prefKeys.findSome? (fun k =>
      match List.lookup k d.address with
      | some v => if v = "" then none else some v
      | none => none) with
  | some v => v
  | none =>
    match d.display_name with
    | some dn => headSegment dn
    | none => "Unknown location"

/-- The extraction rule the code actually implements, written from the
amended claim's words: the value of the first *present* preference field
provided it is non-empty; otherwise the first comma-separated segment of
the display name provided that is present and non-empty; otherwise the
sentinel. -/
def extractAmended (d : GeoData) : String :=
  match prefKeys.findSome? (fun k => List.lookup k d.address) with
  | some v =>
    if v ≠ "" then v
    else
      match d.display_name with
      | some dn => if headSegment dn = "" then "Unknown location" else headSegment dn
      | none => "Unknown location"
  | none =>
    match d.display_name with
    | some dn => if headSegment dn = "" then "Unknown location" else headSegment dn
    | none => "Unknown location"

/-! ## File store and request handlers (app.py lines 112-227) -/

/-- The JSON object a pin-creation request carries (`request.json`):
`lat`, `lng`, `name` and an optional `image`. -/
structure PinInput where
  lat : Int
  lng : Int
  name : String
  image : Option String
deriving DecidableEq, Repr

/-- A persisted pin record: the request fields enriched with the
generated `id`, the `timestamp` and the resolved `location` (lines
151-156). -/
structure PinRecord where
  id : String
  timestamp : String
  lat : Int
  lng : Int
  name : String
  image : Option String
  location : String
deriving DecidableEq, Repr

/-- Content of a file on disk: `some r` is a readable JSON pin record,
`none` a file on which `json.load` (or `open`) raises. -/
abbrev FileContent := Option PinRecord

/-- The file system: full path → content, one binding per existing file
(the list order stands for the unspecified `os.listdir` order). -/
structure FS where
  files : List (String × FileContent)
deriving DecidableEq, Repr

/-- Constant `PINS_DIR` (line 21). -/
def PINS_DIR : String := "pins"

/-- POSIX `os.path.join(dir, name)`: an absolute second component
discards the first. -/
def osPathJoin (dir name : String) : String :=
  if name.data.head? = some '/' then name else dir ++ "/" ++ name

/-- Python `open(path, 'w')` followed by `json.dump`: create or overwrite the
file at `path`. -/
def writeFile (fs : FS) (path : String) (r : PinRecord) : FS :=
  ⟨(path, some r) :: fs.files.filter (fun p => p.1 != path)⟩

/-- A JSON response body of shape `{status, message}`. -/
structure JsonMsg where
  status : String
  message : String
deriving DecidableEq, Repr

/-- Response body of `POST /pins`: `{'status': 'success', 'pin_data': ...}`
or `{'error': str(e)}`. -/
inductive PostResp where
  | success : PinRecord → PostResp
  | error : String → PostResp
deriving DecidableEq, Repr

/-- The POST branch of `handle_pins` (lines 148-168): enrich the request
with the generated id (`uuid4`, supplied here as `genId`), the current
timestamp and the resolved location, then write the record to
`pins/<id>.json`.  `writeError` is the outcome of the file write: when it
is `some e`, the blanket `except` returns `jsonify({'error': str(e)}), 400`
and the file system is unchanged; otherwise the response is the enriched
record with Flask's default status 200. -/
def handle_pins_post (fs : FS) (genId now loc : String) (inp : PinInput)
    (writeError : Option String) : FS × Nat × PostResp :=
  match writeError with
  | some e => (fs, 400, PostResp.error e)
  | none =>
    let newPin : PinRecord :=
      { id := genId, timestamp := now, lat := inp.lat, lng := inp.lng,
        name := inp.name, image := inp.image, location := loc }
    (writeFile fs (osPathJoin PINS_DIR (genId ++ ".json")) newPin, 200,
      PostResp.success newPin)

/-- Handler `delete_pin` (lines 170-183): build `pins/<pin_id>.json`, check
existence, remove on success.  `removeError` is the outcome of
`os.remove`; when it is `some e` the handler answers 500. -/
def delete_pin (fs : FS) (pinId : String) (removeError : Option String) :
    FS × Nat × JsonMsg :=
  let pinFile := osPathJoin PINS_DIR (pinId ++ ".json")
  if fs.files.any (fun p => p.1 == pinFile) then
    match removeError with
    | some e => (fs, 500, { status := "error", message := e })
    | none =>
      (⟨fs.files.filter (fun p => p.1 != pinFile)⟩, 200,
        { status := "success", message := "Pin deleted successfully" })
  else
    (fs, 404, { status := "error", message := "Pin not found" })

/-- Python `os.listdir(PINS_DIR)` membership: the bare name of a path lying
directly inside the pins directory. -/
def pinsDirEntry (path : String) : Option String :=
  if "pins/".data.isPrefixOf path.data then
    if (path.data.drop 5).any (fun c => c == '/') then none
    else some (String.mk (path.data.drop 5))
  else none

/-- Python `filename.endswith('.json')`. -/
def isJsonName (name : String) : Bool := ".json".data.isSuffixOf name.data

/-- The loop of `load_locations` (lines 122-131): every `.json` entry of
the pins directory is opened and parsed inside a per-file `try`; a file
on which that raises is logged and skipped. -/
def loadLoop : List (String × FileContent) → List PinRecord
  | [] => []
  | (path, content) :: rest =>
    match pinsDirEntry path with
    | some name =>
      if isJsonName name then
        match content with
        | some pin => pin :: loadLoop rest
        | none => loadLoop rest
      else loadLoop rest
    | none => loadLoop rest

/-- Function `load_locations` (lines 112-136), serving `GET /pins`. -/
def load_locations (fs : FS) : List PinRecord := loadLoop fs.files

/-- The pin-collection loop of `generate_light_map` (lines 218-224): the
same traversal but with *no* per-file handler, so the first file on which
`json.load` raises aborts the whole request. -/
def generatePins : List (String × FileContent) → Except String (List PinRecord)
  | [] => Except.ok []
  | (path, content) :: rest =>
    match pinsDirEntry path with
    | some name =>
      if isJsonName name then
        match content with
        | some pin => (generatePins rest).map (fun l => pin :: l)
        | none => Except.error path
      else generatePins rest
    | none => generatePins rest

/-- Python string comparison (code-point lexicographic). -/
def charListLe : List Char → List Char → Bool
  | [], _ => true
  | _ :: _, [] => false
  | a :: as, b :: bs => if a = b then charListLe as bs else decide (a < b)

/-- Stable insertion used to model `pins.sort(key=...)`. -/
def insertByTimestamp (p : PinRecord) : List PinRecord → List PinRecord
  | [] => [p]
  | q :: rest =>
    if charListLe p.timestamp.data q.timestamp.data &&
        !charListLe q.timestamp.data p.timestamp.data then
      p :: q :: rest
    else q :: insertByTimestamp p rest

/-- Python `pins.sort(key=lambda x: x.get('timestamp', ''))` (line 227). -/
def sortByTimestamp (l : List PinRecord) : List PinRecord :=
  l.foldl (fun acc p => insertByTimestamp p acc) []

/-- Handler `generate_light_map` (lines 215-227) up to the data it embeds in the
HTML: the pins it reads, sorted by timestamp, or the exception that
escaped. -/
def generate_light_map (fs : FS) : Except String (List PinRecord) :=
  (generatePins fs.files).map sortByTimestamp

/-- Whether an export attempt failed with an exception. -/
def exceptFails : Except String (List PinRecord) → Bool
  | Except.error _ => true
  | Except.ok _ => false

/-- The records of the files that parse — "the remaining valid ones". -/
def validRecords (fs : FS) : FS :=
  ⟨fs.files.filter (fun p => p.2.isSome)⟩

/-! ## Lemmas about the broadcaster -/

theorem run_append (a b : List Event) (s : BState) :
    run s (a ++ b) = (run s a).bind (fun s2 => run s2 b) := by
  induction a generalizing s with
  | nil => simp [run]
  | cons e a ih =>
    simp only [List.cons_append, run]
    cases step s e with
    | none => simp
    | some s2 => simpa using ih s2

theorem trim_of_length_le {l : List Nat} (h : l.length ≤ 100) : trim l = l := by
  unfold trim
  have : l.length - 100 = 0 := by omega
  simp [this]

theorem trim_length (l : List Nat) : (trim l).length = min l.length 100 := by
  unfold trim
  simp only [List.length_drop]
  omega

theorem trim_length_le (l : List Nat) : (trim l).length ≤ 100 := by
  rw [trim_length]; omega

theorem trim_append_of_le (l1 l2 : List Nat) (h : 100 ≤ l2.length) :
    trim (l1 ++ l2) = trim l2 := by
  unfold trim
  have hl : (l1 ++ l2).length - 100 = l1.length + (l2.length - 100) := by
    simp only [List.length_append]; omega
  rw [hl, List.drop_append]

theorem trim_trim_append (l ms : List Nat) :
    trim (trim l ++ ms) = trim (l ++ ms) := by
  by_cases hl : l.length ≤ 100
  · rw [trim_of_length_le hl]
  · have h100 : 100 ≤ (trim l).length := by rw [trim_length]; omega
    conv_rhs => rw [← List.take_append_drop (l.length - 100) l]
    rw [List.append_assoc]
    rw [show List.drop (l.length - 100) l = trim l from rfl]
    rw [trim_append_of_le (List.take (l.length - 100) l) (trim l ++ ms)
      (by simp only [List.length_append]; omega)]

theorem run_messages {tr : List Event} {s s2 : BState}
    (h : run s tr = some s2) (hlen : s.messages.length ≤ 100) :
    s2.messages = trim (s.messages ++ broadcasts tr) := by
  induction tr generalizing s with
  | nil =>
    simp only [run, Option.some.injEq] at h
    subst h
    simp [broadcasts, trim_of_length_le hlen]
  | cons e tr ih =>
    cases e with
    | register q =>
      simp only [run, step] at h
      have := ih h (by simpa [registerStep] using hlen)
      simpa [registerStep, broadcasts] using this
    | unregister q =>
      by_cases hq : q ∈ s.clients
      · simp only [run, step, unregisterStep, if_pos hq] at h
        have := ih h (by simpa using hlen)
        simpa [broadcasts] using this
      · simp only [run, step, unregisterStep, if_neg hq] at h
        exact absurd h (by simp)
    | broadcast m =>
      simp only [run, step] at h
      have := ih h (by simpa [broadcastStep] using trim_length_le (s.messages ++ [m]))
      rw [this]
      simp only [broadcastStep, broadcasts]
      rw [trim_trim_append]
      simp

theorem run_notClient {q : Nat} {tr : List Event} {s s2 : BState}
    (htr : ∀ e ∈ tr, touches q e = false)
    (hq : q ∉ s.clients) (h : run s tr = some s2) :
    s2.queues q = s.queues q ∧ q ∉ s2.clients := by
  induction tr generalizing s with
  | nil =>
    simp only [run, Option.some.injEq] at h
    subst h
    exact ⟨rfl, hq⟩
  | cons e tr ih =>
    have hte := htr e (List.mem_cons_self e tr)
    have htr' : ∀ e ∈ tr, touches q e = false := fun e he => htr e (List.mem_cons_of_mem _ he)
    cases e with
    | register p =>
      have hpq : p ≠ q := by simpa [touches] using hte
      simp only [run, step] at h
      have hq' : q ∉ (registerStep s p).clients := by
        simp only [registerStep]
        split
        · exact hq
        · simp only [List.mem_cons]
          rintro (rfl | hmem)
          · exact hpq rfl
          · exact hq hmem
      have := ih htr' hq' h
      have hqueue : (registerStep s p).queues q = s.queues q := by
        simp only [registerStep]
        rw [if_neg (by intro hcontra; exact hpq hcontra.symm)]
      rw [hqueue] at this
      exact this
    | unregister p =>
      have hpq : p ≠ q := by simpa [touches] using hte
      by_cases hp : p ∈ s.clients
      · simp only [run, step, unregisterStep, if_pos hp] at h
        exact ih htr' (s := { s with clients := s.clients.erase p })
          (fun hmem => hq (List.mem_of_mem_erase hmem)) h
      · simp only [run, step, unregisterStep, if_neg hp] at h
        exact absurd h (by simp)
    | broadcast m =>
      simp only [run, step] at h
      have hq' : q ∉ (broadcastStep s m).clients := by simpa [broadcastStep] using hq
      have := ih htr' hq' h
      have hqueue : (broadcastStep s m).queues q = s.queues q := by
        simp only [broadcastStep]
        rw [if_neg hq]
      rw [hqueue] at this
      exact this

theorem run_client {q : Nat} {tr : List Event} {s s2 : BState}
    (htr : ∀ e ∈ tr, touches q e = false)
    (hq : q ∈ s.clients) (h : run s tr = some s2) :
    s2.queues q = s.queues q ++ broadcasts tr ∧ q ∈ s2.clients := by
  induction tr generalizing s with
  | nil =>
    simp only [run, Option.some.injEq] at h
    subst h
    exact ⟨by simp [broadcasts], hq⟩
  | cons e tr ih =>
    have hte := htr e (List.mem_cons_self e tr)
    have htr' : ∀ e ∈ tr, touches q e = false := fun e he => htr e (List.mem_cons_of_mem _ he)
    cases e with
    | register p =>
      have hpq : p ≠ q := by simpa [touches] using hte
      simp only [run, step] at h
      have hq' : q ∈ (registerStep s p).clients := by
        simp only [registerStep]
        split
        · exact hq
        · exact List.mem_cons_of_mem _ hq
      have := ih htr' hq' h
      have hqueue : (registerStep s p).queues q = s.queues q := by
        simp only [registerStep]
        rw [if_neg (by intro hcontra; exact hpq hcontra.symm)]
      rw [hqueue] at this
      simpa [broadcasts] using this
    | unregister p =>
      have hpq : p ≠ q := by simpa [touches] using hte
      by_cases hp : p ∈ s.clients
      · simp only [run, step, unregisterStep, if_pos hp] at h
        have := ih htr' (s := { s with clients := s.clients.erase p })
          ((List.mem_erase_of_ne (by intro hcontra; exact hpq hcontra.symm)).mpr hq) h
        simpa [broadcasts] using this
      · simp only [run, step, unregisterStep, if_neg hp] at h
        exact absurd h (by simp)
    | broadcast m =>
      simp only [run, step] at h
      have hq' : q ∈ (broadcastStep s m).clients := by simpa [broadcastStep] using hq
      have := ih htr' hq' h
      have hqueue : (broadcastStep s m).queues q = s.queues q ++ [m] := by
        simp only [broadcastStep]
        rw [if_pos hq]
      rw [hqueue] at this
      rcases this with ⟨h1, h2⟩
      refine ⟨?_, h2⟩
      rw [h1, List.append_assoc]
      simp [broadcasts]

/-- Core fan-out property: in any successful run from the initial state in
which no event other than the distinguished `register q` mentions `q`,
subscriber `q`'s final queue is exactly the replay of the buffer at
registration time followed by every message broadcast afterwards, in
issuance order. -/
theorem run_register_split {q : Nat} {pre post : List Event} {s2 : BState}
    (hpre : ∀ e ∈ pre, touches q e = false)
    (hpost : ∀ e ∈ post, touches q e = false)
    (h : run initState (pre ++ Event.register q :: post) = some s2) :
    s2.queues q = trim (broadcasts pre) ++ broadcasts post := by
  rw [show pre ++ Event.register q :: post = pre ++ (Event.register q :: post) from rfl,
    run_append] at h
  cases h1 : run initState pre with
  | none => rw [h1] at h; exact absurd h (by simp)
  | some s1 =>
    rw [h1] at h
    simp only [Option.bind] at h
    have hA := run_notClient hpre (by simp [initState]) h1
    have hM := run_messages h1 (by simp [initState])
    simp only [run, step] at h
    have hclients : q ∈ (registerStep s1 q).clients := by
      simp only [registerStep]
      split
      · assumption
      · exact List.mem_cons_self _ _
    have hqueue : (registerStep s1 q).queues q = trim (broadcasts pre) := by
      simp only [registerStep]
      rw [if_pos trivial, hA.1, hM]
      simp [initState]
    have hB := run_client hpost hclients h
    rw [hB.1, hqueue]

theorem broadcasts_map (later : List Nat) :
    broadcasts (later.map Event.broadcast) = later := by
  induction later with
  | nil => rfl
  | cons m ms ih => simpa [broadcasts] using ih

/-- Claim C1, counterexample: the claim fails as stated.  In the call
sequence `register q; broadcast 5; unregister q; register q` the message
`5` is issued exactly once while `q` is registered, yet it ends up in
`q`'s queue twice, because the second `register` replays the buffer to a
queue that already received the message live. -/
theorem C1_redelivery_cex :
    (run initState [Event.register 0, Event.broadcast 5, Event.unregister 0,
        Event.register 0]).map (fun s => (s.queues 0).count 5) = some 2 ∧
    (broadcasts [Event.register 0, Event.broadcast 5, Event.unregister 0,
        Event.register 0]).count 5 = 1 := by
  constructor <;> rfl

/-- Claim C1 (amended): in every successful call sequence in which
subscriber `q` is registered exactly once (no other call mentions `q`),
every message broadcast while `q` is in the active set is enqueued to
`q`'s queue, and those messages appear there in issuance order, each
exactly once, as the suffix after the replayed buffer. -/
theorem C1_broadcaster_delivery {q : Nat} {pre post : List Event} {s2 : BState}
    (hpre : ∀ e ∈ pre, touches q e = false)
    (hpost : ∀ e ∈ post, touches q e = false)
    (h : run initState (pre ++ Event.register q :: post) = some s2) :
    s2.queues q = trim (broadcasts pre) ++ broadcasts post :=
  run_register_split hpre hpost h

/-- Witness for `C1_broadcaster_delivery` at a concrete trace. -/
theorem C1_broadcaster_delivery_witness :
    (run initState ([Event.broadcast 1] ++ Event.register 0 ::
        [Event.broadcast 2, Event.broadcast 3])).map (fun s => s.queues 0) =
      some [1, 2, 3] := by
  have hsome : (run initState ([Event.broadcast 1] ++ Event.register 0 ::
      [Event.broadcast 2, Event.broadcast 3])).isSome = true := rfl
  cases h : run initState ([Event.broadcast 1] ++ Event.register 0 ::
      [Event.broadcast 2, Event.broadcast 3]) with
  | none => rw [h] at hsome; exact absurd hsome (by simp)
  | some s =>
    have hq := @C1_broadcaster_delivery 0 [Event.broadcast 1]
      [Event.broadcast 2, Event.broadcast 3] s (by decide) (by decide) h
    simp only [Option.map]
    rw [hq]
    rfl

/-- Claim C2 (confirmed): a subscriber that registers fresh after the
broadcasts contained in `pre` (N of them) has exactly the most recent
`min N 100` of those messages enqueued by `register`, in arrival order,
and they precede every message from a later broadcast in its queue. -/
theorem C2_register_replay {q : Nat} {pre : List Event} {later : List Nat} {s2 : BState}
    (hpre : ∀ e ∈ pre, touches q e = false)
    (h : run initState (pre ++ Event.register q :: later.map Event.broadcast) = some s2) :
    s2.queues q = trim (broadcasts pre) ++ later ∧
      (trim (broadcasts pre)).length = min (broadcasts pre).length 100 := by
  have hpost : ∀ e ∈ later.map Event.broadcast, touches q e = false := by
    intro e he
    rcases List.mem_map.mp he with ⟨m, _, rfl⟩
    rfl
  have hmain := run_register_split hpre hpost h
  rw [broadcasts_map] at hmain
  exact ⟨hmain, trim_length _⟩

/-- Witness for `C2_register_replay` at a concrete trace. -/
theorem C2_register_replay_witness :
    (run initState ([Event.broadcast 1, Event.broadcast 2] ++ Event.register 0 ::
        ([3] : List Nat).map Event.broadcast)).map (fun s => s.queues 0) =
      some [1, 2, 3] := by
  have hsome : (run initState ([Event.broadcast 1, Event.broadcast 2] ++
      Event.register 0 :: ([3] : List Nat).map Event.broadcast)).isSome = true := rfl
  cases h : run initState ([Event.broadcast 1, Event.broadcast 2] ++
      Event.register 0 :: ([3] : List Nat).map Event.broadcast) with
  | none => rw [h] at hsome; exact absurd hsome (by simp)
  | some s =>
    have hq := @C2_register_replay 0 [Event.broadcast 1, Event.broadcast 2]
      [3] s (by decide) h
    simp only [Option.map]
    rw [hq.1]
    rfl

/-! ## Location-resolver theorems -/

/-- Claim C3, counterexample: when the outbound lookup raises, the
sentinel is returned without being cached (the `except` branch skips
line 69), so resolving the same pair `(0, 0)` twice with a failing
lookup issues two outbound lookups — the claim's "at most one outbound
lookup in total" is false, and the first call leaves the cache empty. -/
theorem C3_failed_lookup_not_cached_cex :
    ((get_nearest_city FetchOutcome.failure
        ((get_nearest_city FetchOutcome.failure ⟨[], 0⟩ 0 0).2) 0 0).2).lookups = 2 ∧
    ((get_nearest_city FetchOutcome.failure ⟨[], 0⟩ 0 0).2).cache = [] ∧
    ¬ ((get_nearest_city FetchOutcome.failure
        ((get_nearest_city FetchOutcome.failure ⟨[], 0⟩ 0 0).2) 0 0).2).lookups ≤ 1 := by
  refine ⟨rfl, rfl, by decide⟩

/-- Claim C3 (amended): when the first resolution of `(lat, lon)` does
not raise, its result — including the sentinel produced by an empty
successful response — is cached before returning, so a second call for
the same pair returns the same result, changes nothing, and issues no
further outbound lookup; the two calls issue at most one lookup beyond
the starting count.  (When the first lookup raises, nothing is cached
and a second call does hit the network again.) -/
theorem C3_resolver_memoization (st : GeoState) (lat lon : Int) (d : GeoData)
    (f2 : FetchOutcome) :
    (get_nearest_city f2 (get_nearest_city (FetchOutcome.success d) st lat lon).2 lat lon).1 =
      (get_nearest_city (FetchOutcome.success d) st lat lon).1 ∧
    (get_nearest_city f2 (get_nearest_city (FetchOutcome.success d) st lat lon).2 lat lon).2 =
      (get_nearest_city (FetchOutcome.success d) st lat lon).2 ∧
    (get_nearest_city (FetchOutcome.success d) st lat lon).2.lookups ≤ st.lookups + 1 := by
  cases hk : List.lookup (cacheKey lat lon) st.cache with
  | some v =>
    unfold get_nearest_city
    simp [hk]
  | none =>
    have hsecond : List.lookup (cacheKey lat lon)
        ((cacheKey lat lon, extract d) :: st.cache) = some (extract d) := by
      simp [List.lookup]
    unfold get_nearest_city
    simp [hk, hsecond]

/-- The amended extraction wording agrees with the code's extraction. -/
theorem extract_eq_extractAmended (d : GeoData) : extract d = extractAmended d := by
  unfold extract extractAmended
  cases h0 : prefKeys.findSome? (fun k => List.lookup k d.address) with
  | none =>
    simp only [Option.getD]
    cases hd : d.display_name with
    | none => simp
    | some dn => by_cases hseg : headSegment dn = "" <;> simp [hseg]
  | some v =>
    by_cases hv : v = ""
    · subst hv
      simp only [Option.getD]
      cases hd : d.display_name with
      | none => simp
      | some dn => by_cases hseg : headSegment dn = "" <;> simp [hseg]
    · simp [Option.getD, hv]

/-- Claim C4, counterexample: with `address = {city: "", town: "Hamburg"}`
and `display_name = "Altona, Hamburg"`, the first *populated* preference
field is `town`, so the claim requires "Hamburg"; the code breaks on the
first *present* field (`city`, empty), then falls back to the display
name and returns "Altona". -/
theorem C4_extraction_cex :
    extract ⟨[("city", ""), ("town", "Hamburg")], some "Altona, Hamburg"⟩ = "Altona" ∧
    extractSpec ⟨[("city", ""), ("town", "Hamburg")], some "Altona, Hamburg"⟩ = "Hamburg" ∧
    ("Altona" : String) ≠ "Hamburg" := by
  refine ⟨by decide, by decide, by decide⟩

/-- Claim C4 (amended): on a cache miss the resolver returns the value of
the first *present* field in the priority order city, town, village,
suburb, county, state provided that value is non-empty; if the first
present field is empty, or no field is present, it returns the first
comma-separated segment of the display name when that is present and
non-empty; otherwise — including every raised request failure — it
returns the sentinel "Unknown location" rather than raising. -/
theorem C4_extraction_policy (st : GeoState) (lat lon : Int) (d : GeoData)
    (hmiss : List.lookup (cacheKey lat lon) st.cache = none) :
    (get_nearest_city (FetchOutcome.success d) st lat lon).1 = extractAmended d ∧
    (get_nearest_city FetchOutcome.failure st lat lon).1 = "Unknown location" := by
  constructor
  · unfold get_nearest_city
    simp only [hmiss]
    exact extract_eq_extractAmended d
  · unfold get_nearest_city
    simp [hmiss]

/-- Witness for `C4_extraction_policy` at concrete inputs. -/
theorem C4_extraction_policy_witness :
    (get_nearest_city (FetchOutcome.success ⟨[("city", "Berlin")], none⟩) ⟨[], 0⟩ 1 2).1 =
      extractAmended ⟨[("city", "Berlin")], none⟩ ∧
    (get_nearest_city FetchOutcome.failure ⟨[], 0⟩ 1 2).1 = "Unknown location" :=
  C4_extraction_policy ⟨[], 0⟩ 1 2 ⟨[("city", "Berlin")], none⟩ rfl

/-- Claim C5 (code bug): `Broadcaster.unregister` calls `set.remove`
(line 93), which raises `KeyError` when the queue is not in the active
set, so unregistering an absent subscriber raises instead of being an
idempotent no-op; even a subscriber that did register raises on its
second `unregister`. -/
theorem C5_unregister_raises_on_absent :
    step initState (Event.unregister 0) = none ∧
    run initState [Event.register 0, Event.unregister 0, Event.unregister 0] = none := by
  constructor <;> rfl

/-! ## Store and handler theorems -/

/-- Claim C6, counterexample: a pin-creation request on which the file
write raises is answered with status 400 — a client error, not a
5xx-class server error. -/
theorem C6_write_error_status_cex :
    (handle_pins_post ⟨[]⟩ "a" "t" "X" ⟨1, 2, "n", none⟩ (some "disk full")).2.1 = 400 ∧
    ¬ (500 ≤ (handle_pins_post ⟨[]⟩ "a" "t" "X" ⟨1, 2, "n", none⟩
        (some "disk full")).2.1 ∧
       (handle_pins_post ⟨[]⟩ "a" "t" "X" ⟨1, 2, "n", none⟩ (some "disk full")).2.1 < 600) := by
  exact ⟨rfl, by decide⟩

/-- Claim C6 (amended): every pin-creation request on which the write
raises is caught by the blanket handler of `handle_pins` and answered
with the client-error status 400 and body `{'error': str(e)}`, leaving
the stored records unchanged. -/
theorem C6_write_error_response (fs : FS) (genId now loc : String) (inp : PinInput)
    (e : String) :
    handle_pins_post fs genId now loc inp (some e) = (fs, 400, PostResp.error e) ∧
    (handle_pins_post fs genId now loc inp (some e)).2.1 < 500 := by
  exact ⟨rfl, show (400 : Nat) < 500 by decide⟩

/-- Claim C7 (confirmed): deleting an identifier whose pin file does not
exist answers 404 with body `{status: "error", message: "Pin not found"}`
and returns the persisted records exactly as they were. -/
theorem C7_delete_not_found (fs : FS) (pinId : String) (removeError : Option String)
    (h : ∀ p ∈ fs.files, p.1 ≠ osPathJoin PINS_DIR (pinId ++ ".json")) :
    delete_pin fs pinId removeError =
      (fs, 404, { status := "error", message := "Pin not found" }) := by
  unfold delete_pin
  have hany : (fs.files.any (fun p => p.1 == osPathJoin PINS_DIR (pinId ++ ".json"))) = false := by
    rw [List.any_eq_false]
    intro p hp
    simpa using h p hp
  rw [if_neg (by rw [hany]; exact Bool.false_ne_true)]

/-- Witness for `C7_delete_not_found` at concrete inputs. -/
theorem C7_delete_not_found_witness :
    delete_pin ⟨[("pins/a.json", some ⟨"a", "t", 0, 0, "n", none, "X"⟩)]⟩ "b" none =
      (⟨[("pins/a.json", some ⟨"a", "t", 0, 0, "n", none, "X"⟩)]⟩, 404,
        { status := "error", message := "Pin not found" }) :=
  C7_delete_not_found _ _ _ (by decide)

/-- Step equation of the `load_locations` loop. -/
theorem loadLoop_cons (path : String) (content : FileContent)
    (rest : List (String × FileContent)) :
    loadLoop ((path, content) :: rest) =
      (match pinsDirEntry path with
      | some name =>
        if isJsonName name then
          match content with
          | some pin => pin :: loadLoop rest
          | none => loadLoop rest
        else loadLoop rest
      | none => loadLoop rest) := rfl

/-- Step equation of the export loop. -/
theorem generatePins_cons (path : String) (content : FileContent)
    (rest : List (String × FileContent)) :
    generatePins ((path, content) :: rest) =
      (match pinsDirEntry path with
      | some name =>
        if isJsonName name then
          match content with
          | some pin => (generatePins rest).map (fun l => pin :: l)
          | none => Except.error path
        else generatePins rest
      | none => generatePins rest) := rfl

/-- A file whose content does not parse contributes nothing to
`load_locations`. -/
theorem loadLoop_none_cons (path : String) (rest : List (String × FileContent)) :
    loadLoop ((path, none) :: rest) = loadLoop rest := by
  rw [loadLoop_cons]
  rcases hpe : pinsDirEntry path with _ | name
  · rfl
  · by_cases hj : isJsonName name = true <;> simp [hj]

/-- Listing skips exactly the unparseable files: the result over any file
list equals the result over its parseable sublist. -/
theorem loadLoop_filter_isSome (l : List (String × FileContent)) :
    loadLoop (l.filter (fun p => p.2.isSome)) = loadLoop l := by
  induction l with
  | nil => rfl
  | cons hd rest ih =>
    obtain ⟨path, content⟩ := hd
    cases content with
    | none =>
      have hf : ((path, none) :: rest).filter (fun p => p.2.isSome) =
          rest.filter (fun p => p.2.isSome) := by simp
      rw [hf, loadLoop_none_cons, ih]
    | some r =>
      have hf : ((path, some r) :: rest).filter (fun p => p.2.isSome) =
          (path, some r) :: rest.filter (fun p => p.2.isSome) := by
        simp
      rw [hf, loadLoop_cons, loadLoop_cons]
      rcases hpe : pinsDirEntry path with _ | name
      · exact ih
      · by_cases hj : isJsonName name = true <;> simp [hj, ih]

/-- A bad `.json` file anywhere in the list makes the export loop raise. -/
theorem generatePins_error_of_bad {l : List (String × FileContent)} {path name : String}
    (hmem : (path, (none : FileContent)) ∈ l)
    (hentry : pinsDirEntry path = some name) (hjson : isJsonName name = true) :
    exceptFails (generatePins l) = true := by
  induction l with
  | nil => cases hmem
  | cons hd rest ih =>
    rcases List.mem_cons.mp hmem with heq | hmem2
    · subst heq
      rw [generatePins_cons]
      simp [hentry, hjson, exceptFails]
    · obtain ⟨p, c⟩ := hd
      rw [generatePins_cons]
      rcases hpe : pinsDirEntry p with _ | nm
      · exact ih hmem2
      · by_cases hj : isJsonName nm = true
        · cases c with
          | none => simp [hj, exceptFails]
          | some pin =>
            have hrest := ih hmem2
            cases hg : generatePins rest with
            | error e => simp [hj, hg, exceptFails, Except.map]
            | ok pins => rw [hg] at hrest; exact absurd hrest (by simp [exceptFails])
        · simpa [hj] using ih hmem2

/-- Strings with equal character data are equal. -/
theorem string_data_eq {a b : String} (h : a.data = b.data) : a = b :=
  congrArg String.mk h

/-- Rebuilding a string from its character data is the identity. -/
theorem string_mk_data (t : String) : String.mk t.data = t := by
  cases t
  rfl

/-- For an identifier without a path separator, `id + ".json"` does not
start with `/`, so `os.path.join` prepends the pins directory. -/
theorem head_ne_slash {s : String}
    (h : s.data.any (fun c => c == '/') = false) :
    ¬ ((s ++ ".json").data.head? = some '/') := by
  intro hc
  rw [String.data_append] at hc
  cases hdata : s.data with
  | nil => rw [hdata] at hc; exact absurd hc (by decide)
  | cons c cs =>
    rw [hdata] at hc
    rw [hdata] at h
    simp only [List.cons_append, List.head?_cons, Option.some.injEq] at hc
    subst hc
    simp at h

theorem osPathJoin_no_slash {s : String}
    (h : s.data.any (fun c => c == '/') = false) :
    osPathJoin PINS_DIR (s ++ ".json") = PINS_DIR ++ "/" ++ (s ++ ".json") := by
  unfold osPathJoin
  rw [if_neg (head_ne_slash h)]

/-- A list `isPrefixOf` any extension of itself. -/
theorem isPrefixOf_append_self (l1 l2 : List Char) : l1.isPrefixOf (l1 ++ l2) = true := by
  induction l1 with
  | nil => simp
  | cons a as ih => simp [List.isPrefixOf, ih]

/-- A file written at `pins/<id>.json` for a separator-free `id` is an
entry of the pins directory with bare name `<id>.json`. -/
theorem pinsDirEntry_join {s : String}
    (h : s.data.any (fun c => c == '/') = false) :
    pinsDirEntry (PINS_DIR ++ "/" ++ (s ++ ".json")) = some (s ++ ".json") := by
  have hdata : (PINS_DIR ++ "/" ++ (s ++ ".json")).data =
      "pins/".data ++ (s ++ ".json").data := by
    simp [PINS_DIR, String.data_append]
  have hany : ((s ++ ".json").data.any fun c => c == '/') = false := by
    rw [String.data_append, List.any_append, h]
    simp
  unfold pinsDirEntry
  rw [hdata]
  rw [if_pos (isPrefixOf_append_self _ _)]
  rw [List.drop_left' (by decide : (("pins/" : String).data).length = 5)]
  rw [if_neg (by rw [hany]; exact Bool.false_ne_true)]

theorem isJsonName_append (s : String) : isJsonName (s ++ ".json") = true := by
  unfold isJsonName
  rw [String.data_append]
  exact List.isSuffixOf_iff_suffix.mpr (List.suffix_append _ _)

/-- Distinct separator-free identifiers give distinct pin files. -/
theorem join_inj {a b : String}
    (h : PINS_DIR ++ "/" ++ (a ++ ".json") = PINS_DIR ++ "/" ++ (b ++ ".json")) :
    a = b := by
  have hd := congrArg String.data h
  simp only [String.data_append] at hd
  have h2 := List.append_cancel_left hd
  have h3 := List.append_cancel_right h2
  exact string_data_eq h3

/-- A freshly created pin record is visible to the listing loop. -/
theorem loadLoop_good_cons {s : String}
    (hs : s.data.any (fun c => c == '/') = false)
    (r : PinRecord) (rest : List (String × FileContent)) :
    loadLoop ((osPathJoin PINS_DIR (s ++ ".json"), some r) :: rest) =
      r :: loadLoop rest := by
  have he : pinsDirEntry (osPathJoin PINS_DIR (s ++ ".json")) = some (s ++ ".json") := by
    rw [osPathJoin_no_slash hs]
    exact pinsDirEntry_join hs
  rw [loadLoop_cons]
  simp [he, isJsonName_append]

/-- Claim C9 (confirmed): when some record file of the pins directory is
a `.json` file that cannot be parsed, the export (`generate_light_map`)
fails as a whole, while the listing (`load_locations`) skips exactly the
unparseable files and returns the remaining valid records. -/
theorem C9_export_fragile (fs : FS) (path name : String)
    (hmem : (path, (none : FileContent)) ∈ fs.files)
    (hentry : pinsDirEntry path = some name)
    (hjson : isJsonName name = true) :
    exceptFails (generate_light_map fs) = true ∧
    load_locations fs = load_locations (validRecords fs) := by
  constructor
  · have herr := generatePins_error_of_bad hmem hentry hjson
    unfold generate_light_map
    cases hg : generatePins fs.files with
    | error e => rfl
    | ok pins => rw [hg] at herr; exact absurd herr (by simp [exceptFails])
  · unfold load_locations validRecords
    rw [loadLoop_filter_isSome]

/-- Witness for `C9_export_fragile` at a concrete store holding one valid
and one corrupted record file. -/
theorem C9_export_fragile_witness :
    exceptFails (generate_light_map ⟨[("pins/g.json", some ⟨"g", "t", 0, 0, "n", none, "X"⟩),
        ("pins/bad.json", none)]⟩) = true ∧
    load_locations ⟨[("pins/g.json", some ⟨"g", "t", 0, 0, "n", none, "X"⟩),
        ("pins/bad.json", none)]⟩ =
      load_locations (validRecords ⟨[("pins/g.json", some ⟨"g", "t", 0, 0, "n", none, "X"⟩),
        ("pins/bad.json", none)]⟩) :=
  C9_export_fragile _ "pins/bad.json" "bad.json" (by decide) (by decide) (by decide)

/-- Claim C8 (confirmed): pin creation adds exactly one new record under
the freshly generated identifier and leaves every previously persisted
record unchanged; two creations yield distinct identifiers and file
names, and both records appear in a subsequent listing.  The two `uuid4`
results are modelled as supplied identifiers assumed distinct, fresh and
separator-free, which `uuid.uuid4` guarantees (up to its astronomically
improbable collisions, which the code does not guard against). -/
theorem C8_create_two_pins (fs : FS) (id1 id2 now1 now2 loc1 loc2 : String)
    (inp1 inp2 : PinInput)
    (hs1 : id1.data.any (fun c => c == '/') = false)
    (hs2 : id2.data.any (fun c => c == '/') = false)
    (hne : id1 ≠ id2)
    (hfresh1 : ∀ p ∈ fs.files, p.1 ≠ osPathJoin PINS_DIR (id1 ++ ".json"))
    (hfresh2 : ∀ p ∈ fs.files, p.1 ≠ osPathJoin PINS_DIR (id2 ++ ".json")) :
    (handle_pins_post fs id1 now1 loc1 inp1 none).1.files =
      (osPathJoin PINS_DIR (id1 ++ ".json"),
        some ⟨id1, now1, inp1.lat, inp1.lng, inp1.name, inp1.image, loc1⟩) :: fs.files ∧
    (handle_pins_post (handle_pins_post fs id1 now1 loc1 inp1 none).1
        id2 now2 loc2 inp2 none).1.files =
      (osPathJoin PINS_DIR (id2 ++ ".json"),
        some ⟨id2, now2, inp2.lat, inp2.lng, inp2.name, inp2.image, loc2⟩) ::
      (osPathJoin PINS_DIR (id1 ++ ".json"),
        some ⟨id1, now1, inp1.lat, inp1.lng, inp1.name, inp1.image, loc1⟩) :: fs.files ∧
    osPathJoin PINS_DIR (id1 ++ ".json") ≠ osPathJoin PINS_DIR (id2 ++ ".json") ∧
    (⟨id1, now1, inp1.lat, inp1.lng, inp1.name, inp1.image, loc1⟩ : PinRecord) ∈
      load_locations (handle_pins_post (handle_pins_post fs id1 now1 loc1 inp1 none).1
        id2 now2 loc2 inp2 none).1 ∧
    (⟨id2, now2, inp2.lat, inp2.lng, inp2.name, inp2.image, loc2⟩ : PinRecord) ∈
      load_locations (handle_pins_post (handle_pins_post fs id1 now1 loc1 inp1 none).1
        id2 now2 loc2 inp2 none).1 := by
  have hpne : osPathJoin PINS_DIR (id1 ++ ".json") ≠ osPathJoin PINS_DIR (id2 ++ ".json") := by
    rw [osPathJoin_no_slash hs1, osPathJoin_no_slash hs2]
    intro hcontra
    exact hne (join_inj hcontra)
  have h1 : (handle_pins_post fs id1 now1 loc1 inp1 none).1.files =
      (osPathJoin PINS_DIR (id1 ++ ".json"),
        some ⟨id1, now1, inp1.lat, inp1.lng, inp1.name, inp1.image, loc1⟩) :: fs.files := by
    show (osPathJoin PINS_DIR (id1 ++ ".json"),
        some (⟨id1, now1, inp1.lat, inp1.lng, inp1.name, inp1.image, loc1⟩ : PinRecord)) ::
      fs.files.filter (fun p => p.1 != osPathJoin PINS_DIR (id1 ++ ".json")) = _
    congr 1
    rw [List.filter_eq_self]
    intro p hp
    simpa using hfresh1 p hp
  have h2 : (handle_pins_post (handle_pins_post fs id1 now1 loc1 inp1 none).1
      id2 now2 loc2 inp2 none).1.files =
      (osPathJoin PINS_DIR (id2 ++ ".json"),
        some ⟨id2, now2, inp2.lat, inp2.lng, inp2.name, inp2.image, loc2⟩) ::
      (osPathJoin PINS_DIR (id1 ++ ".json"),
        some ⟨id1, now1, inp1.lat, inp1.lng, inp1.name, inp1.image, loc1⟩) :: fs.files := by
    show (osPathJoin PINS_DIR (id2 ++ ".json"),
        some (⟨id2, now2, inp2.lat, inp2.lng, inp2.name, inp2.image, loc2⟩ : PinRecord)) ::
      (handle_pins_post fs id1 now1 loc1 inp1 none).1.files.filter
        (fun p => p.1 != osPathJoin PINS_DIR (id2 ++ ".json")) = _
    rw [h1]
    congr 1
    rw [List.filter_eq_self]
    intro p hp
    rcases List.mem_cons.mp hp with rfl | hp2
    · simpa using hpne
    · simpa using hfresh2 p hp2
  have hload : load_locations (handle_pins_post (handle_pins_post fs id1 now1 loc1 inp1 none).1
      id2 now2 loc2 inp2 none).1 =
      (⟨id2, now2, inp2.lat, inp2.lng, inp2.name, inp2.image, loc2⟩ : PinRecord) ::
      (⟨id1, now1, inp1.lat, inp1.lng, inp1.name, inp1.image, loc1⟩ : PinRecord) ::
      loadLoop fs.files := by
    unfold load_locations
    rw [h2, loadLoop_good_cons hs2, loadLoop_good_cons hs1]
  refine ⟨h1, h2, hpne, ?_, ?_⟩
  · rw [hload]
    exact List.mem_cons_of_mem _ (List.mem_cons_self _ _)
  · rw [hload]
    exact List.mem_cons_self _ _

/-- Witness for `C8_create_two_pins`: two creations on an empty store. -/
theorem C8_create_two_pins_witness :
    (handle_pins_post ⟨[]⟩ "a" "t1" "X" ⟨1, 2, "n1", none⟩ none).1.files =
      [(osPathJoin PINS_DIR ("a" ++ ".json"), some ⟨"a", "t1", 1, 2, "n1", none, "X"⟩)] ∧
    (handle_pins_post (handle_pins_post ⟨[]⟩ "a" "t1" "X" ⟨1, 2, "n1", none⟩ none).1
        "b" "t2" "Y" ⟨3, 4, "n2", none⟩ none).1.files =
      [(osPathJoin PINS_DIR ("b" ++ ".json"), some ⟨"b", "t2", 3, 4, "n2", none, "Y"⟩),
       (osPathJoin PINS_DIR ("a" ++ ".json"), some ⟨"a", "t1", 1, 2, "n1", none, "X"⟩)] ∧
    osPathJoin PINS_DIR ("a" ++ ".json") ≠ osPathJoin PINS_DIR ("b" ++ ".json") ∧
    (⟨"a", "t1", 1, 2, "n1", none, "X"⟩ : PinRecord) ∈
      load_locations (handle_pins_post (handle_pins_post ⟨[]⟩ "a" "t1" "X"
        ⟨1, 2, "n1", none⟩ none).1 "b" "t2" "Y" ⟨3, 4, "n2", none⟩ none).1 ∧
    (⟨"b", "t2", 3, 4, "n2", none, "Y"⟩ : PinRecord) ∈
      load_locations (handle_pins_post (handle_pins_post ⟨[]⟩ "a" "t1" "X"
        ⟨1, 2, "n1", none⟩ none).1 "b" "t2" "Y" ⟨3, 4, "n2", none⟩ none).1 :=
  C8_create_two_pins ⟨[]⟩ "a" "b" "t1" "t2" "X" "Y" ⟨1, 2, "n1", none⟩ ⟨3, 4, "n2", none⟩
    (by decide) (by decide) (by decide) (by simp) (by simp)

/-- Claim C10 (confirmed): for every string `id` the delete handler
targets exactly the path `os.path.join(PINS_DIR, id + ".json")` — no
validation restricts `id` to generated identifiers — answering 404
exactly when no file exists at that path and success exactly when one
does, in which case that file is removed; and an `id` containing path
separators addresses (and removes) a `.json` file outside the pins
directory, as the absolute identifier `/etc/target` shows. -/
theorem C10_delete_path_traversal :
    (∀ fs pinId,
      ((delete_pin fs pinId none).2.1 = 404 ↔
        fs.files.any (fun p => p.1 == osPathJoin PINS_DIR (pinId ++ ".json")) = false) ∧
      ((delete_pin fs pinId none).2.1 = 200 ↔
        fs.files.any (fun p => p.1 == osPathJoin PINS_DIR (pinId ++ ".json")) = true) ∧
      (delete_pin fs pinId none).1.files =
        (if fs.files.any (fun p => p.1 == osPathJoin PINS_DIR (pinId ++ ".json")) then
          fs.files.filter (fun p => p.1 != osPathJoin PINS_DIR (pinId ++ ".json"))
        else fs.files)) ∧
    delete_pin ⟨[("/etc/target.json", some ⟨"x", "t", 0, 0, "n", none, "X"⟩)]⟩
        "/etc/target" none =
      (⟨[]⟩, 200, ⟨"success", "Pin deleted successfully"⟩) ∧
    "pins/".data.isPrefixOf "/etc/target.json".data = false := by
  refine ⟨?_, by decide, by decide⟩
  intro fs pinId
  by_cases hany : fs.files.any (fun p => p.1 == osPathJoin PINS_DIR (pinId ++ ".json")) = true
  · unfold delete_pin
    simp [hany]
  · have hfalse : fs.files.any (fun p => p.1 == osPathJoin PINS_DIR (pinId ++ ".json")) = false := by
      cases hb : fs.files.any (fun p => p.1 == osPathJoin PINS_DIR (pinId ++ ".json")) with
      | false => rfl
      | true => exact absurd hb hany
    unfold delete_pin
    simp [hfalse]

end MapApp
